import Mathlib

/-!
Verification of the mynah-ui prompt-input widgets: a shallow embedding of
`src/components/chat-item/prompt-input/prompt-text-input.ts` (classes
`PromptTextInput`, `FeedbackForm`, `SyntaxHighlighter`) and of the `Select`
widget, together with proofs about their getter/setter, event-handler and
escaping behaviour.

Modelling conventions:
 - A DOM element is represented by exactly the pieces of state these widgets
   read or write: its `value` string, its attribute map (a partial map from
   attribute names to values, as `String → Option String`), its class list
   and its `innerHTML`/selection fields where relevant.
 - Event handlers become pure functions from the widget state (plus the
   event's data) to the new state together with the list of callback
   invocations they perform; an absent optional callback prop is a `false`
   flag, and an invocation is recorded as the tuple of arguments passed.
 - Browser-native focus (`element.focus()`) changes which element owns the
   keyboard, which is outside the modelled widget state; the calls are noted
   in comments where the source makes them.
-/

/-! ## DOM attribute / class-list primitives -/

/-- Attribute map of a DOM element: `Element.setAttribute` semantics. -/
def setAttrF (attrs : String → Option String) (n v : String) : String → Option String :=
  fun m => if m = n then some v else attrs m

/-- Attribute map of a DOM element: `Element.removeAttribute` semantics. -/
def removeAttrF (attrs : String → Option String) (n : String) : String → Option String :=
  fun m => if m = n then none else attrs m

/-- Class list of a DOM element: `classList.add` adds the class when missing. -/
def addClassL (cs : List String) (c : String) : List String :=
  if c ∈ cs then cs else cs ++ [c]

/-- Class list of a DOM element: `classList.remove` drops the class. -/
def removeClassL (cs : List String) (c : String) : List String :=
  cs.filter (fun x => x ≠ c)

/-! ## Shared string helpers used by the sizer update

The sizer innerHTML assignment in `updatePromptTextInputSizer` is
  value.replace(newline-regex, br-tag).replace(at-token-regex, context-span) + nbsp-entity
with the at-token regex matching an at sign followed by a greedy run of
non-whitespace characters. -/

/-- Whitespace as matched by the JavaScript regex class backslash-s
(the characters relevant to DOM strings). -/
def jsIsSpace (c : Char) : Bool :=
  c = ' ' || c = '\t' || c = '\n' || c = '\r' || c = '\x0b' || c = '\x0c' || c = ' '

/-- JavaScript `String.prototype.trim` on a character list. -/
def jsTrim (l : List Char) : List Char :=
  ((l.dropWhile jsIsSpace).reverse.dropWhile jsIsSpace).reverse

/-- The `.replace(/\n/g, '<br>')` pass of the sizer innerHTML template. -/
def replaceNewlines : List Char → List Char
  | [] => []
  | c :: r => (if c = '\n' then ['<', 'b', 'r', '>'] else [c]) ++ replaceNewlines r

theorem length_dropWhile_le (p : Char → Bool) (l : List Char) :
    (l.dropWhile p).length ≤ l.length := by
  induction l with
  | nil => simp
  | cons a as ih =>
    by_cases h : p a
    · simp only [List.dropWhile, h, List.length_cons]
      omega
    · simp [List.dropWhile, h]

/-- The `.replace(/@\S*/gi, m => '<span class="context">' + m + '</span>')` pass:
each at sign starts a greedy run of non-whitespace characters, and the whole
match is wrapped in a context span. -/
def wrapContext : List Char → List Char
  | [] => []
  | c :: r =>
    if c = '@' then
      "<span class=\x22context\x22>".data ++ (c :: r.takeWhile (fun d => !jsIsSpace d)) ++
        "</span>".data ++ wrapContext (r.dropWhile (fun d => !jsIsSpace d))
    else c :: wrapContext r
termination_by l => l.length
decreasing_by
  · have h := length_dropWhile_le (fun d => !jsIsSpace d) r
    simp; omega
  · simp

/-! ## PromptTextInput -/

/-- The optional placeholder argument of `updatePromptTextInputSizer` /
`updateTextInputValue`: `{ index?: number; text?: string }`. -/
structure SizerPlaceHolder where
  index : Option Nat
  text : Option String

/-- State of a `PromptTextInput` widget: the textarea's value, attribute map
and selection range, the sizer span's innerHTML, and the class list of the
wrapper div returned as `render`. -/
structure PromptTextInputState where
  inputValue : String
  inputAttrs : String → Option String
  selStart : Option Nat
  selEnd : Option Nat
  sizerInnerHTML : String
  renderClasses : List String

/-- `PromptTextInput.updatePromptTextInputSizer`: toggles the `no-text` class
on the wrapper by whether the trimmed value is non-empty, optionally splices a
placeholder span into the value at the given index, and writes the processed
value (newlines to br tags, at-tokens wrapped in context spans, trailing nbsp
entity) into the sizer's innerHTML. -/
def updatePromptTextInputSizer (ph : Option SizerPlaceHolder) (s : PromptTextInputState) :
    PromptTextInputState :=
  let s1 :=
    if jsTrim s.inputValue.data ≠ [] then
      { s with renderClasses := removeClassL s.renderClasses "no-text" }
    else
      { s with renderClasses := addClassL s.renderClasses "no-text" }
  let v := s.inputValue.data
  let processed : List Char :=
    match ph with
    | some p =>
      match p.text with
      | some t =>
        -- `value.substring(0, index ?? length)` then the placeholder span then
        -- `value.substring((index ?? length) + 1)`
        v.take (p.index.getD v.length) ++ " <span class=\x22placeholder\x22>".data ++
          t.data ++ "</span> ".data ++ v.drop ((p.index.getD v.length) + 1)
      | none => v
    | none => v
  { s1 with sizerInnerHTML := String.mk (wrapContext (replaceNewlines processed) ++ "&nbsp".data) }

/-- `PromptTextInput.getTextInputValue`: returns the textarea's value. -/
def getTextInputValue (s : PromptTextInputState) : String :=
  s.inputValue

/-- `PromptTextInput.updateTextInputValue`: assigns the textarea's value and
re-runs the sizer update. -/
def updateTextInputValue (v : String) (ph : Option SizerPlaceHolder)
    (s : PromptTextInputState) : PromptTextInputState :=
  updatePromptTextInputSizer ph { s with inputValue := v }

/-- `PromptTextInput.getCursorPos`: `selectionStart ?? value.length`. -/
def getCursorPos (s : PromptTextInputState) : Nat :=
  s.selStart.getD s.inputValue.length

/-- `PromptTextInput.focus`: after the (config-gated, browser-native) focus
call, a non-null `cursorIndex` moves the selection range there via
`setSelectionRange`, and a null one runs `updateTextInputValue('')`. -/
def focusMethod (autoFocus : Bool) (cursorIndex : Option Nat)
    (s : PromptTextInputState) : PromptTextInputState :=
  -- if autoFocus: this.promptTextInput.focus() — browser keyboard focus,
  -- outside the modelled widget state
  match autoFocus, cursorIndex with
  | _, some i => { s with selStart := some i, selEnd := some i }
  | _, none => updateTextInputValue "" none s

/-- The `promptInputDisabledState` subscription handler of the
`PromptTextInput` constructor: sets `disabled="disabled"` on the textarea when
disabled, removes the attribute (and, when `autoFocus` is configured,
re-focuses the textarea) when enabled. -/
def promptInputDisabledStateHandler (autoFocus : Bool) (isDisabled : Bool)
    (s : PromptTextInputState) : PromptTextInputState :=
  if isDisabled then
    { s with inputAttrs := setAttrF s.inputAttrs "disabled" "disabled" }
  else
    -- the enable branch also calls this.promptTextInput.focus() when
    -- Config.autoFocus is set — browser keyboard focus, outside the state
    { s with inputAttrs := removeAttrF s.inputAttrs "disabled" }

/-- The `input` event handler of the prompt textarea: always re-runs the sizer
update, then invokes the optional `onInput` prop with the event when the prop
is present. The returned list records the events passed to `onInput`. -/
def inputEventHandlerModel {Ev : Type} (hasOnInput : Bool) (e : Ev)
    (s : PromptTextInputState) : PromptTextInputState × List Ev :=
  (updatePromptTextInputSizer none s, if hasOnInput then [e] else [])

/-! ## Select -/

/-- State of a `Select` widget: the select element's value and attribute map. -/
structure SelectState where
  value : String
  attrs : String → Option String

/-- `Select.setValue`: assigns the select element's value. -/
def Select.setValue (v : String) (s : SelectState) : SelectState :=
  { s with value := v }

/-- `Select.getValue`: reads the select element's value. -/
def Select.getValue (s : SelectState) : String :=
  s.value

/-- `Select.setEnabled`: removes the `disabled` attribute when enabling, sets
`disabled="disabled"` when disabling. -/
def Select.setEnabled (enabled : Bool) (s : SelectState) : SelectState :=
  if enabled then
    { s with attrs := removeAttrF s.attrs "disabled" }
  else
    { s with attrs := setAttrF s.attrs "disabled" "disabled" }

/-- The `change` event handler of the select element: invokes the optional
`onChange` prop with the current target's value when the prop is present, and
does nothing else. The returned list records the values passed to `onChange`. -/
def Select.changeEventCalls (hasOnChange : Bool) (currentTargetValue : String) : List String :=
  if hasOnChange then [currentTargetValue] else []

/-! ## Helper lemmas -/

/-- The sizer update never touches the textarea's value. -/
theorem updatePromptTextInputSizer_inputValue (ph : Option SizerPlaceHolder)
    (s : PromptTextInputState) :
    (updatePromptTextInputSizer ph s).inputValue = s.inputValue := by
  unfold updatePromptTextInputSizer
  split <;> rfl

/-- The sizer update never touches the selection range. -/
theorem updatePromptTextInputSizer_sel (ph : Option SizerPlaceHolder)
    (s : PromptTextInputState) :
    (updatePromptTextInputSizer ph s).selStart = s.selStart ∧
      (updatePromptTextInputSizer ph s).selEnd = s.selEnd := by
  unfold updatePromptTextInputSizer
  split <;> exact ⟨rfl, rfl⟩

theorem setAttrF_same (attrs : String → Option String) (n v : String) :
    setAttrF attrs n v n = some v := by
  simp [setAttrF]

theorem removeAttrF_same (attrs : String → Option String) (n : String) :
    removeAttrF attrs n n = none := by
  simp [removeAttrF]

/-! ## Claims about PromptTextInput and Select -/

/-- Claim C1: for every string `v`, `updateTextInputValue v` (with no
placeholder argument) followed by `getTextInputValue` returns exactly `v`; the
setter stores the value unmodified. -/
theorem claim_C1_value_roundtrip (v : String) (s : PromptTextInputState) :
    getTextInputValue (updateTextInputValue v none s) = v := by
  unfold getTextInputValue updateTextInputValue
  rw [updatePromptTextInputSizer_inputValue]

/-- Claim C5: for every string `v`, `Select.setValue v` followed by
`Select.getValue` returns `v`. -/
theorem claim_C5_select_value_roundtrip (v : String) (s : SelectState) :
    Select.getValue (Select.setValue v s) = v := rfl

/-- Claim C4: a boolean `b` delivered on the `promptInputDisabledState`
subscription leaves the textarea with attribute `disabled="disabled"` exactly
when `b` is true; `Select.setEnabled false` sets the `disabled` attribute on
the select element and `Select.setEnabled true` removes it. -/
theorem claim_C4_disabled_attribute (autoFocus b : Bool) (s : PromptTextInputState)
    (sel : SelectState) :
    (promptInputDisabledStateHandler autoFocus b s).inputAttrs "disabled" =
       (if b then some "disabled" else none) ∧
      (Select.setEnabled false sel).attrs "disabled" = some "disabled" ∧
      (Select.setEnabled true sel).attrs "disabled" = none := by
  refine ⟨?_, ?_, ?_⟩
  · cases b <;> simp [promptInputDisabledStateHandler, setAttrF_same, removeAttrF_same]
  · simp [Select.setEnabled, setAttrF_same]
  · simp [Select.setEnabled, removeAttrF_same]

/-- Claim C7: `getCursorPos` returns the textarea's `selectionStart` when it
is non-null and otherwise falls back to the length of the current value. -/
theorem claim_C7_cursor_pos (s : PromptTextInputState) :
    (∀ n, s.selStart = some n → getCursorPos s = n) ∧
      (s.selStart = none → getCursorPos s = s.inputValue.length) := by
  constructor
  · intro n h
    simp [getCursorPos, h]
  · intro h
    simp [getCursorPos, h]

/-- Witness for claim C7 at concrete states: selection at 5 beats a value of
length 2, and a null selection falls back to the length. -/
theorem claim_C7_cursor_pos_witness :
    getCursorPos ⟨"ab", fun _ => none, some 5, none, "", []⟩ = 5 ∧
      getCursorPos ⟨"ab", fun _ => none, none, none, "", []⟩ = 2 :=
  ⟨(claim_C7_cursor_pos ⟨"ab", fun _ => none, some 5, none, "", []⟩).1 5 rfl,
    (claim_C7_cursor_pos ⟨"ab", fun _ => none, none, none, "", []⟩).2 rfl⟩

/-- Claim C9: `focus` with a non-null cursor index leaves the text value (and
everything else) unchanged and only moves the selection range to that index,
whereas `focus()` with no cursor index resets the text input value to the
empty string. -/
theorem claim_C9_focus_effects (autoFocus : Bool) (s : PromptTextInputState) (i : Nat) :
    focusMethod autoFocus (some i) s = { s with selStart := some i, selEnd := some i } ∧
      (focusMethod autoFocus none s).inputValue = "" := by
  constructor
  · cases autoFocus <;> rfl
  · cases autoFocus <;>
      simp [focusMethod, updateTextInputValue, updatePromptTextInputSizer_inputValue]

/-! ## FeedbackForm

The feedback payload is `{ messageId, selectedOption, tabId, comment }`. The
first configured feedback option's value
(`Config.getInstance().config.feedbackOptions[0].value`) is passed in as a
parameter `firstOptionValue`. The comment widget (`FeedbackFormComment`, whose
source file is not part of this tree) is represented by its current comment
string. -/

structure FeedbackPayload where
  messageId : String
  selectedOption : String
  tabId : String
  comment : String
  deriving DecidableEq, Repr

/-- State of a `FeedbackForm`: the stored payload, the comment widget's
string, the options `Select`, the class list of the portal wrapper, and
whether the wrapper has been created yet. -/
structure FeedbackFormState where
  payload : FeedbackPayload
  commentValue : String
  optionsSelect : SelectState
  wrapperClasses : List String
  wrapperExists : Bool

/-- `FeedbackForm.close`: clears the comment widget (Modelled from the spec:
`FeedbackFormComment.clear` is not under this tree; per the spec the feedback
form "resets to default option/comment on close", so clearing empties the
comment), sets the options select back to the first configured option's value,
resets the stored payload to its defaults, and removes the
`mynah-feedback-form-show` class from the wrapper. -/
def FeedbackForm.close (firstOptionValue : String) (s : FeedbackFormState) :
    FeedbackFormState :=
  { payload :=
      { messageId := ""
        selectedOption := firstOptionValue
        tabId := ""
        comment := "" }
    commentValue := ""
    optionsSelect := Select.setValue firstOptionValue s.optionsSelect
    wrapperClasses := removeClassL s.wrapperClasses "mynah-feedback-form-show"
    wrapperExists := s.wrapperExists }

/-- `FeedbackForm.show` (the callback deferred by the single `setTimeout`):
adds the `mynah-feedback-form-show` class to the form wrapper. -/
def FeedbackForm.show (s : FeedbackFormState) : FeedbackFormState :=
  { s with wrapperClasses := addClassL s.wrapperClasses "mynah-feedback-form-show" }

/-- The synchronous part of the `SHOW_FEEDBACK_FORM` listener, run before the
`setTimeout` fires: creates the portal wrapper when it does not exist yet and
stores the event's `messageId` and `tabId` into the payload. -/
def FeedbackForm.showFeedbackFormSync (messageId tabId : String)
    (s : FeedbackFormState) : FeedbackFormState :=
  { s with
    wrapperExists := true
    payload := { s.payload with messageId := messageId, tabId := tabId } }

/-- Claim C2: after `FeedbackForm.close`, the stored payload equals the
default (selectedOption is the first configured option's value, comment and
messageId and tabId are empty), the comment widget is cleared, and the select
widget reads back that first option's value. -/
theorem claim_C2_feedback_close_resets (firstOptionValue : String) (s : FeedbackFormState) :
    (FeedbackForm.close firstOptionValue s).payload =
        { messageId := ""
          selectedOption := firstOptionValue
          tabId := ""
          comment := "" } ∧
      (FeedbackForm.close firstOptionValue s).commentValue = "" ∧
      Select.getValue (FeedbackForm.close firstOptionValue s).optionsSelect =
        firstOptionValue :=
  ⟨rfl, rfl, rfl⟩

/-- Claim C8: the callback deferred by the single `setTimeout` — namely
`FeedbackForm.show` — only adds the `mynah-feedback-form-show` class to the
form wrapper and changes nothing else (payload, comment and select value are
untouched), while the payload's `messageId` and `tabId` are set synchronously
from the event data before the delay. -/
theorem claim_C8_deferred_show_only_toggles_class (s : FeedbackFormState)
    (messageId tabId : String) :
    FeedbackForm.show s =
        { s with wrapperClasses := addClassL s.wrapperClasses "mynah-feedback-form-show" } ∧
      (FeedbackForm.show s).payload = s.payload ∧
      (FeedbackForm.show s).commentValue = s.commentValue ∧
      (FeedbackForm.show s).optionsSelect = s.optionsSelect ∧
      (FeedbackForm.showFeedbackFormSync messageId tabId s).payload.messageId = messageId ∧
      (FeedbackForm.showFeedbackFormSync messageId tabId s).payload.tabId = tabId :=
  ⟨rfl, rfl, rfl, rfl, rfl, rfl⟩

/-! ## SyntaxHighlighter: copy event and clipboard callback -/

inductive CodeSelectionType where
  | selection
  | block
  deriving DecidableEq, Repr

/-- Result of `SyntaxHighlighter.getSelectedCodeContextMenu` /
`getSelectedCode`. -/
structure SelectedCode where
  code : String
  type : CodeSelectionType
  deriving DecidableEq, Repr

/-- `SyntaxHighlighter.getSelectedCodeContextMenu`:
`document.getSelection()?.toString() ?? ''` with type `'selection'`; the
document selection is `none` when `getSelection` returns null. -/
def getSelectedCodeContextMenu (docSelection : Option String) : SelectedCode :=
  { code := docSelection.getD "", type := CodeSelectionType.selection }

/-- `SyntaxHighlighter.onCopiedToClipboard` (the private method): invokes the
optional `onCopiedToClipboard` prop with `(type, text, index)` when the prop
is present, and does nothing otherwise. The returned list records the
invocations. -/
def onCopiedToClipboardCalls (hasCb : Bool) (idx : Option Nat) (text : String)
    (ty : CodeSelectionType) : List (CodeSelectionType × String × Option Nat) :=
  if hasCb then [(ty, text, idx)] else []

/-- Modelled from the spec: `copyToClipboard` (from `helper/chat-item`, not
under this tree) writes the text to the clipboard and then runs the completion
callback; "Clipboard copy failures ... are silently no-op'd", so on failure
(`ok = false`) neither happens. Returns the successful clipboard writes and
the recorded callback invocations. -/
def copyToClipboardModel (ok : Bool) (text : String)
    (onCopied : List (CodeSelectionType × String × Option Nat)) :
    List String × List (CodeSelectionType × String × Option Nat) :=
  if ok then ([text], onCopied) else ([], [])

/-- Observable outcome of one `copy` event on the highlighter's pre element. -/
structure CopyEventResult where
  defaultCancelled : Bool
  clipboardWrites : List String
  callbackCalls : List (CodeSelectionType × String × Option Nat)
  deriving DecidableEq, Repr

/-- The `copy` event handler registered on the pre element: always cancels the
default behaviour, then, when the selected code is non-empty, calls
`copyToClipboard` with the selection and a completion that forwards to the
`onCopiedToClipboard` method. -/
def copyEventHandler (hasCb : Bool) (idx : Option Nat) (docSelection : Option String)
    (ok : Bool) : CopyEventResult :=
  let selectedCode := getSelectedCodeContextMenu docSelection
  if selectedCode.code.length > 0 then
    let r := copyToClipboardModel ok selectedCode.code
      (onCopiedToClipboardCalls hasCb idx selectedCode.code selectedCode.type)
    { defaultCancelled := true, clipboardWrites := r.1, callbackCalls := r.2 }
  else
    { defaultCancelled := true, clipboardWrites := [], callbackCalls := [] }

/-- Claim C3 counterexample: with a non-empty document selection "x", a
successful clipboard, and the `onCopiedToClipboard` prop absent, the handler
does write the clipboard while the callback never fires — so neither "the
clipboard write together with the callback happens iff the selection is
non-empty" nor "when the callback prop is absent nothing else happens" holds
as stated. -/
theorem claim_C3_counterexample :
    (copyEventHandler false none (some "x") true).clipboardWrites ≠ [] ∧
      (copyEventHandler false none (some "x") true).callbackCalls = [] ∧
      ¬ ((((copyEventHandler false none (some "x") true).clipboardWrites ≠ [] ∧
            (copyEventHandler false none (some "x") true).callbackCalls ≠ [])) ↔
          (some "x").getD "" ≠ "") := by
  decide

/-- Claim C3 (amended): on a copy event the default behaviour is always
cancelled; the clipboard write happens iff the document selection is a
non-empty string and the clipboard operation succeeds, with exactly the
selection text; and the `onCopiedToClipboard` callback fires iff additionally
the prop is present, receiving type `'selection'`, the selection text, and the
code block index. -/
theorem claim_C3_copy_event (hasCb : Bool) (idx : Option Nat)
    (docSelection : Option String) (ok : Bool) :
    (copyEventHandler hasCb idx docSelection ok).defaultCancelled = true ∧
      (copyEventHandler hasCb idx docSelection ok).clipboardWrites =
        (if docSelection.getD "" ≠ "" ∧ ok = true then [docSelection.getD ""] else []) ∧
      (copyEventHandler hasCb idx docSelection ok).callbackCalls =
        (if docSelection.getD "" ≠ "" ∧ ok = true ∧ hasCb = true then
          [(CodeSelectionType.selection, docSelection.getD "", idx)]
        else []) := by
  have hlen : ∀ t : String, (t.length > 0) = (t ≠ "") := by
    intro t
    apply propext
    constructor
    · intro h he
      subst he
      simp at h
    · intro h
      cases t with
      | mk d =>
        cases d with
        | nil => exact absurd rfl h
        | cons a as => simp [String.length]
  unfold copyEventHandler getSelectedCodeContextMenu copyToClipboardModel
    onCopiedToClipboardCalls
  by_cases hs : docSelection.getD "" = ""
  · simp [hs]
  · cases ok <;> cases hasCb <;> simp [hs, hlen]

/-- Claim C6: when an optional callback prop is absent the handler completes
its other effects and silently does nothing more, and when present it is
invoked with the event's data: the input event with `onInput` undefined only
re-runs the sizer update; `onCopiedToClipboard` absent means the copy
completion does nothing further; the `Select` change event with `onChange`
undefined does nothing further. -/
theorem claim_C6_absent_callbacks {Ev : Type} (e : Ev) (s : PromptTextInputState)
    (idx : Option Nat) (text : String) (ty : CodeSelectionType) (v : String) :
    inputEventHandlerModel false e s = (updatePromptTextInputSizer none s, []) ∧
      inputEventHandlerModel true e s = (updatePromptTextInputSizer none s, [e]) ∧
      onCopiedToClipboardCalls false idx text ty = [] ∧
      onCopiedToClipboardCalls true idx text ty = [(ty, text, idx)] ∧
      Select.changeEventCalls false v = [] ∧
      Select.changeEventCalls true v = [v] :=
  ⟨rfl, rfl, rfl, rfl, rfl, rfl⟩

/-! ## SyntaxHighlighter: the escaping transform

The constructor computes `escapeHTML(unescapeHTML(props.codeStringWithMarkup))`
"to ensure we are not leaving anything unescaped before escaping i.e to
prevent double escaping". `escapeHTML` and `unescapeHTML` come from the npm
dependencies `escape-html` and `unescape-html` (their sources are not part of
this tree): `escape-html` rewrites each of the five HTML-special characters
(quote, ampersand, apostrophe, less-than, greater-than) to its entity in a
single character-wise pass, and `unescape-html` applies five global
`String.replace` passes turning those entities back into characters, the
ampersand entity last. A global JavaScript `replace` with a literal pattern
scans left to right and never rescans the replacement text. -/

def quotTail : List Char := ['q', 'u', 'o', 't', ';']

def aposTail : List Char := ['#', '3', '9', ';']

def ltTail : List Char := ['l', 't', ';']

def gtTail : List Char := ['g', 't', ';']

def ampTail : List Char := ['a', 'm', 'p', ';']

/-- escape-html on one character: the five specials become entities, every
other character is kept. -/
def escChar (c : Char) : List Char :=
  if c = '"' then '&' :: quotTail
  else if c = '&' then '&' :: ampTail
  else if c = '\'' then '&' :: aposTail
  else if c = '<' then '&' :: ltTail
  else if c = '>' then '&' :: gtTail
  else [c]

/-- Character-wise escaping with an arbitrary per-character map. -/
def escListF (f : Char → List Char) : List Char → List Char
  | [] => []
  | c :: r => f c ++ escListF f r

/-- One global JavaScript `String.replace` pass with the literal pattern
`p :: ps` and replacement `rep`: leftmost match first, continue after the
match, never rescan the replacement. -/
def replPass (p : Char) (ps rep : List Char) : List Char → List Char
  | [] => []
  | c :: rest =>
    if (p :: ps).isPrefixOf (c :: rest) then rep ++ replPass p ps rep (rest.drop ps.length)
    else c :: replPass p ps rep rest
termination_by l => l.length
decreasing_by
  · simp only [List.length_drop, List.length_cons]
    omega
  · simp

/-- unescape-html: five global replace passes, quote entity first, ampersand
entity last. -/
def unescapeListHTML (l : List Char) : List Char :=
  replPass '&' ampTail ['&']
    (replPass '&' gtTail ['>']
      (replPass '&' ltTail ['<']
        (replPass '&' aposTail ['\'']
          (replPass '&' quotTail ['"'] l))))

/-- escape-html on a string. -/
def escapeHTML (s : String) : String :=
  String.mk (escListF escChar s.data)

/-- unescape-html on a string. -/
def unescapeHTML (s : String) : String :=
  String.mk (unescapeListHTML s.data)

/-- The transform the SyntaxHighlighter constructor applies to the incoming
code string: `escapeHTML(unescapeHTML(s))`. -/
def escapedTransform (s : String) : String :=
  escapeHTML (unescapeHTML s)

/-! ### Replace-pass lemmas -/

theorem replPass_nil (p : Char) (ps rep : List Char) : replPass p ps rep [] = [] := by
  simp [replPass]

theorem replPass_cons (p : Char) (ps rep : List Char) (c : Char) (l : List Char) :
    replPass p ps rep (c :: l) =
      if (p :: ps).isPrefixOf (c :: l) then rep ++ replPass p ps rep (l.drop ps.length)
      else c :: replPass p ps rep l := by
  rw [replPass]

theorem isPrefixOf_append_self (xs l : List Char) : xs.isPrefixOf (xs ++ l) = true := by
  induction xs with
  | nil => simp [List.isPrefixOf]
  | cons a as ih => simp [List.isPrefixOf, ih]

theorem isPrefixOf_getElem? :
    ∀ (xs l : List Char), xs.isPrefixOf l = true → ∀ j, j < xs.length → l[j]? = xs[j]?
  | [], _, _, j, hj => by simp at hj
  | _ :: _, [], h, _, _ => by simp [List.isPrefixOf] at h
  | x :: xs, y :: ys, h, j, hj => by
    rw [List.isPrefixOf, Bool.and_eq_true, beq_iff_eq] at h
    obtain ⟨h1, h2⟩ := h
    cases j with
    | zero => simp [h1]
    | succ n =>
      simp only [List.getElem?_cons_succ]
      exact isPrefixOf_getElem? xs ys h2 n (by simp at hj; omega)

/-- A match of the pattern at the head consumes exactly the pattern. -/
theorem replPass_matchhead (p : Char) (ps rep rest : List Char) :
    replPass p ps rep ((p :: ps) ++ rest) = rep ++ replPass p ps rep rest := by
  rw [List.cons_append, replPass_cons, if_pos, List.drop_left]
  have h := isPrefixOf_append_self (p :: ps) rest
  rw [List.cons_append] at h
  exact h

/-- The pattern conflicts with a chunk when, at every start offset inside the
chunk, the pattern disagrees with the chunk at some position still inside the
chunk — so no match can start inside the chunk, whatever follows it. -/
def chunkConflicts (pat ch : List Char) : Prop :=
  ∀ i : Fin ch.length, ∃ j : Fin pat.length, i.1 + j.1 < ch.length ∧ pat[j.1]? ≠ ch[i.1 + j.1]?

theorem chunkConflicts_single (p : Char) (ps : List Char) (c : Char) (h : c ≠ p) :
    chunkConflicts (p :: ps) [c] := by
  intro i
  have hi : i.1 = 0 := by
    have h2 := i.2
    simp only [List.length_cons, List.length_nil] at h2
    omega
  refine ⟨⟨0, by simp⟩, by simp [hi], ?_⟩
  rw [hi]
  simp
  exact fun hh => h hh.symm

theorem chunkConflicts_ne (p : Char) (ps ch : List Char)
    (h : chunkConflicts (p :: ps) ch) : p :: ps ≠ ch := by
  cases ch with
  | nil => simp
  | cons d ds =>
    intro he
    obtain ⟨j, hlt, hne⟩ := h ⟨0, by simp⟩
    injection he with h1 h2
    subst h1
    subst h2
    simp at hne

theorem chunkConflicts_tail (pat : List Char) (d : Char) (ds : List Char)
    (h : chunkConflicts pat (d :: ds)) : chunkConflicts pat ds := by
  intro i
  obtain ⟨j, hlt, hne⟩ := h ⟨i.1 + 1, by have h2 := i.2; simp only [List.length_cons]; omega⟩
  refine ⟨j, ?_, ?_⟩
  · simp only [List.length_cons] at hlt
    omega
  · have harith : (i.1 + 1) + j.1 = (i.1 + j.1) + 1 := by omega
    rw [harith] at hne
    simpa using hne

/-- A replace pass walks over a conflicting chunk without matching. -/
theorem replPass_chunk (p : Char) (ps rep : List Char) :
    ∀ (ch rest : List Char), chunkConflicts (p :: ps) ch →
      replPass p ps rep (ch ++ rest) = ch ++ replPass p ps rep rest := by
  intro ch
  induction ch with
  | nil =>
    intro rest _
    simp
  | cons d ds ih =>
    intro rest h
    have hnp : ¬ (p :: ps).isPrefixOf (d :: (ds ++ rest)) = true := by
      intro hp
      obtain ⟨j, hlt, hne⟩ := h ⟨0, by simp⟩
      have h1 := isPrefixOf_getElem? _ _ hp j.1 j.2
      have h2 : (d :: (ds ++ rest))[j.1]? = (d :: ds)[j.1]? := by
        rw [← List.cons_append]
        apply List.getElem?_append_left
        simp only [List.length_cons]
        simp only [List.length_cons] at hlt
        omega
      apply hne
      rw [Nat.zero_add, ← h1, h2]
    rw [List.cons_append, replPass_cons, if_neg hnp,
      ih rest (chunkConflicts_tail _ _ _ h), List.cons_append]

/-- One replace pass over a character-wise escaped string rewrites exactly the
chunks equal to the pattern, provided every chunk is either the pattern itself
or conflicts with it. -/
theorem replPass_escListF (p : Char) (ps rep : List Char) (f g : Char → List Char)
    (hg : ∀ c, g c = if f c = p :: ps then rep else f c)
    (hf : ∀ c, f c = p :: ps ∨ chunkConflicts (p :: ps) (f c)) :
    ∀ l, replPass p ps rep (escListF f l) = escListF g l := by
  intro l
  induction l with
  | nil => simp [escListF, replPass_nil]
  | cons c r ih =>
    simp only [escListF]
    rcases hf c with h | h
    · rw [h, replPass_matchhead, ih, hg c, if_pos h]
    · rw [replPass_chunk p ps rep (f c) _ h, ih, hg c,
        if_neg (fun he => chunkConflicts_ne p ps (f c) h he.symm)]

/-! ### The five stages of unescaping an escaped string

Applying the five replace passes of unescape-html to a character-wise escaped
string peels off one entity per pass: after the k-th pass the string is the
character-wise image of the original under a map that escapes one special
character fewer. -/

def escChar1 (c : Char) : List Char := if c = '"' then ['"'] else escChar c

def escChar2 (c : Char) : List Char := if c = '\'' then ['\''] else escChar1 c

def escChar3 (c : Char) : List Char := if c = '<' then ['<'] else escChar2 c

def escChar4 (c : Char) : List Char := if c = '>' then ['>'] else escChar3 c

def escChar5 (c : Char) : List Char := if c = '&' then ['&'] else escChar4 c

theorem escChar1_eq (c : Char) :
    escChar1 c = if escChar c = '&' :: quotTail then ['"'] else escChar c := by
  unfold escChar1 escChar quotTail ampTail aposTail ltTail gtTail
  split_ifs <;> simp_all

theorem escChar2_eq (c : Char) :
    escChar2 c = if escChar1 c = '&' :: aposTail then ['\''] else escChar1 c := by
  unfold escChar2 escChar1 escChar quotTail ampTail aposTail ltTail gtTail
  split_ifs <;> simp_all

theorem escChar3_eq (c : Char) :
    escChar3 c = if escChar2 c = '&' :: ltTail then ['<'] else escChar2 c := by
  unfold escChar3 escChar2 escChar1 escChar quotTail ampTail aposTail ltTail gtTail
  split_ifs <;> simp_all

theorem escChar4_eq (c : Char) :
    escChar4 c = if escChar3 c = '&' :: gtTail then ['>'] else escChar3 c := by
  unfold escChar4 escChar3 escChar2 escChar1 escChar quotTail ampTail aposTail ltTail gtTail
  split_ifs <;> simp_all

theorem escChar5_eq (c : Char) :
    escChar5 c = if escChar4 c = '&' :: ampTail then ['&'] else escChar4 c := by
  unfold escChar5 escChar4 escChar3 escChar2 escChar1 escChar quotTail ampTail aposTail ltTail
    gtTail
  split_ifs <;> simp_all

instance (pat ch : List Char) : Decidable (chunkConflicts pat ch) := by
  unfold chunkConflicts
  infer_instance

theorem escChar_conflicts (c : Char) :
    escChar c = '&' :: quotTail ∨ chunkConflicts ('&' :: quotTail) (escChar c) := by
  by_cases h1 : c = '"'
  · subst h1
    exact Or.inl (by decide)
  by_cases h2 : c = '&'
  · subst h2
    exact Or.inr (by decide)
  by_cases h3 : c = '\''
  · subst h3
    exact Or.inr (by decide)
  by_cases h4 : c = '<'
  · subst h4
    exact Or.inr (by decide)
  by_cases h5 : c = '>'
  · subst h5
    exact Or.inr (by decide)
  have he : escChar c = [c] := by
    unfold escChar
    simp [h1, h2, h3, h4, h5]
  rw [he]
  exact Or.inr (chunkConflicts_single '&' quotTail c h2)

theorem escChar1_conflicts (c : Char) :
    escChar1 c = '&' :: aposTail ∨ chunkConflicts ('&' :: aposTail) (escChar1 c) := by
  by_cases h1 : c = '"'
  · subst h1
    exact Or.inr (by decide)
  by_cases h2 : c = '&'
  · subst h2
    exact Or.inr (by decide)
  by_cases h3 : c = '\''
  · subst h3
    exact Or.inl (by decide)
  by_cases h4 : c = '<'
  · subst h4
    exact Or.inr (by decide)
  by_cases h5 : c = '>'
  · subst h5
    exact Or.inr (by decide)
  have he : escChar1 c = [c] := by
    unfold escChar1 escChar
    simp [h1, h2, h3, h4, h5]
  rw [he]
  exact Or.inr (chunkConflicts_single '&' aposTail c h2)

theorem escChar2_conflicts (c : Char) :
    escChar2 c = '&' :: ltTail ∨ chunkConflicts ('&' :: ltTail) (escChar2 c) := by
  by_cases h1 : c = '"'
  · subst h1
    exact Or.inr (by decide)
  by_cases h2 : c = '&'
  · subst h2
    exact Or.inr (by decide)
  by_cases h3 : c = '\''
  · subst h3
    exact Or.inr (by decide)
  by_cases h4 : c = '<'
  · subst h4
    exact Or.inl (by decide)
  by_cases h5 : c = '>'
  · subst h5
    exact Or.inr (by decide)
  have he : escChar2 c = [c] := by
    unfold escChar2 escChar1 escChar
    simp [h1, h2, h3, h4, h5]
  rw [he]
  exact Or.inr (chunkConflicts_single '&' ltTail c h2)

theorem escChar3_conflicts (c : Char) :
    escChar3 c = '&' :: gtTail ∨ chunkConflicts ('&' :: gtTail) (escChar3 c) := by
  by_cases h1 : c = '"'
  · subst h1
    exact Or.inr (by decide)
  by_cases h2 : c = '&'
  · subst h2
    exact Or.inr (by decide)
  by_cases h3 : c = '\''
  · subst h3
    exact Or.inr (by decide)
  by_cases h4 : c = '<'
  · subst h4
    exact Or.inr (by decide)
  by_cases h5 : c = '>'
  · subst h5
    exact Or.inl (by decide)
  have he : escChar3 c = [c] := by
    unfold escChar3 escChar2 escChar1 escChar
    simp [h1, h2, h3, h4, h5]
  rw [he]
  exact Or.inr (chunkConflicts_single '&' gtTail c h2)

theorem escChar4_conflicts (c : Char) :
    escChar4 c = '&' :: ampTail ∨ chunkConflicts ('&' :: ampTail) (escChar4 c) := by
  by_cases h1 : c = '"'
  · subst h1
    exact Or.inr (by decide)
  by_cases h2 : c = '&'
  · subst h2
    exact Or.inl (by decide)
  by_cases h3 : c = '\''
  · subst h3
    exact Or.inr (by decide)
  by_cases h4 : c = '<'
  · subst h4
    exact Or.inr (by decide)
  by_cases h5 : c = '>'
  · subst h5
    exact Or.inr (by decide)
  have he : escChar4 c = [c] := by
    unfold escChar4 escChar3 escChar2 escChar1 escChar
    simp [h1, h2, h3, h4, h5]
  rw [he]
  exact Or.inr (chunkConflicts_single '&' ampTail c h2)

theorem escListF_escChar5 (l : List Char) : escListF escChar5 l = l := by
  induction l with
  | nil => rfl
  | cons c r ih =>
    have h : escChar5 c = [c] := by
      unfold escChar5 escChar4 escChar3 escChar2 escChar1 escChar
      split_ifs <;> simp_all
    simp [escListF, h, ih]

/-- Unescaping a character-wise escaped string restores the original string:
each of the five replace passes rewrites exactly the chunks carrying its
entity, and no pattern can match anywhere else. -/
theorem unescape_escape (l : List Char) :
    unescapeListHTML (escListF escChar l) = l := by
  unfold unescapeListHTML
  rw [replPass_escListF '&' quotTail ['"'] escChar escChar1 escChar1_eq escChar_conflicts l,
    replPass_escListF '&' aposTail ['\''] escChar1 escChar2 escChar2_eq escChar1_conflicts l,
    replPass_escListF '&' ltTail ['<'] escChar2 escChar3 escChar3_eq escChar2_conflicts l,
    replPass_escListF '&' gtTail ['>'] escChar3 escChar4 escChar4_eq escChar3_conflicts l,
    replPass_escListF '&' ampTail ['&'] escChar4 escChar5 escChar5_eq escChar4_conflicts l,
    escListF_escChar5]

/-- Claim C10: the escaping transform applied to the incoming code string in
the SyntaxHighlighter constructor, `e(s) = escapeHTML(unescapeHTML(s))`, is
idempotent: `e(e(s)) = e(s)` for every string `s`, so an already-escaped code
string is never double-escaped. -/
theorem claim_C10_escape_transform_idempotent (s : String) :
    escapedTransform (escapedTransform s) = escapedTransform s := by
  show String.mk (escListF escChar (unescapeListHTML
      (escListF escChar (unescapeListHTML s.data)))) =
    String.mk (escListF escChar (unescapeListHTML s.data))
  rw [unescape_escape]
